import Mathlib

/-!
Shallow embedding of the IronTrack workout-tracking client
(`src/App.tsx` and the advice-gateway module `src/unnamed/part_000`).

The record model (`Set`, `Exercise`, `Workout`) follows the `types`
interfaces verbatim; numbers are modelled as `Nat` (weights and reps are
non-negative), timestamps as opaque strings, and the React component state
that the Session Store owns (`workouts`, `activeWorkout`, `elapsedTime`)
is gathered into `AppState`.  `generateId` is nondeterministic in the
source (`Math.random`), so every operation that creates a record takes the
fresh id as an explicit parameter.  The network call of the advice gateway is
modelled by an `ApiOutcome` parameter (the response text or a thrown
error), so its two entry points become total functions of that outcome.
-/

namespace IronTrack

/-- Mirrors `interface Set` of `types.ts`: id, weight, reps, completed. -/
structure WSet where
  id : String
  weight : Nat
  reps : Nat
  completed : Bool
deriving DecidableEq, Repr

/-- Mirrors `interface Exercise`: id, name, ordered list of sets. -/
structure Exercise where
  id : String
  name : String
  sets : List WSet
deriving DecidableEq, Repr

/-- Mirrors the two-valued `status` union (`active` or `completed`) of `interface Workout`. -/
inductive Status where
  | active
  | completed
deriving DecidableEq, Repr

/-- Mirrors `interface Workout`: id, name, date, exercises, status, durationSeconds. -/
structure Workout where
  id : String
  name : String
  date : String
  exercises : List Exercise
  status : Status
  durationSeconds : Nat
deriving DecidableEq, Repr

/-- The Session Store state of `App.tsx`: the history list `workouts`,
the at-most-one in-progress workout `activeWorkout`, and the timer value
`elapsedTime`.  Presentation-only state (current view, AI tip text,
loading flag, user record) is not part of the record model. -/
structure AppState where
  workouts : List Workout
  activeWorkout : Option Workout
  elapsedTime : Nat
deriving DecidableEq, Repr

/-- Mirrors the two-valued `field` parameter (`weight` or `reps`) of `updateSet`. -/
inductive SetField where
  | weight
  | reps
deriving DecidableEq, Repr

/-- Mirrors `startWorkout` (`App.tsx`): a fresh `active` workout with no
exercises and zero duration becomes the active workout, timer reset. -/
def startWorkout (st : AppState) (newId : String) (type date : String) : AppState :=
  { st with
      activeWorkout := some
        { id := newId, name := type, date := date, exercises := [],
          status := Status.active, durationSeconds := 0 },
      elapsedTime := 0 }

/-- Mirrors `addExercise` (`App.tsx`): appends a new exercise with one
zero-valued incomplete set; no-op when there is no active workout. -/
def addExercise (st : AppState) (exId setId : String) (name : String) : AppState :=
  match st.activeWorkout with
  | none => st
  | some w =>
    { st with
      activeWorkout :=
        some ({ w with exercises := w.exercises ++
            [{ id := exId, name := name,
               sets := [{ id := setId, weight := 0, reps := 0, completed := false }] }] }) }

/-- Mirrors `updateSet` (`App.tsx`): on the exercise whose id matches,
replaces the named field of the set whose id matches; structural
replacement of the surrounding lists, everything unmatched kept. -/
def updateSet (st : AppState) (exerciseId setId : String)
    (field : SetField) (value : Nat) : AppState :=
  match st.activeWorkout with
  | none => st
  | some w =>
    { st with
      activeWorkout :=
        some ({ w with exercises := w.exercises.map (fun ex =>
            if ex.id = exerciseId then
              { ex with sets := ex.sets.map (fun s =>
                  if s.id = setId then
                    match field with
                    | SetField.weight => { s with weight := value }
                    | SetField.reps => { s with reps := value }
                  else s) }
            else ex) }) }

/-- Mirrors `toggleSetComplete` (`App.tsx`): flips the `completed` flag of
the matching set of the matching exercise. -/
def toggleSetComplete (st : AppState) (exerciseId setId : String) : AppState :=
  match st.activeWorkout with
  | none => st
  | some w =>
    { st with
      activeWorkout :=
        some ({ w with exercises := w.exercises.map (fun ex =>
            if ex.id = exerciseId then
              { ex with sets := ex.sets.map (fun s =>
                  if s.id = setId then { s with completed := !s.completed } else s) }
            else ex) }) }

/-- Mirrors `addSet` (`App.tsx`): appends to the matching exercise a new
set carrying the weight and reps of `previousSet` and `completed := false`.
The caller (the Add Set button) passes the current last set of the exercise as
`previousSet`. -/
def addSet (st : AppState) (newId : String) (exerciseId : String)
    (previousSet : WSet) : AppState :=
  match st.activeWorkout with
  | none => st
  | some w =>
    { st with
      activeWorkout :=
        some ({ w with exercises := w.exercises.map (fun ex =>
            if ex.id = exerciseId then
              { ex with sets := ex.sets ++
                  [{ id := newId, weight := previousSet.weight,
                     reps := previousSet.reps, completed := false }] }
            else ex) }) }

/-- Mirrors `removeSet` (`App.tsx`): filters the matching set out of the
set list of the matching exercise — unconditionally, with no minimum-count
check in the store itself. -/
def removeSet (st : AppState) (exerciseId setId : String) : AppState :=
  match st.activeWorkout with
  | none => st
  | some w =>
    { st with
      activeWorkout :=
        some ({ w with exercises := w.exercises.map (fun ex =>
            if ex.id = exerciseId then
              { ex with sets := ex.sets.filter (fun s => s.id != setId) }
            else ex) }) }

/-- Outcome of one `ai.models.generateContent` call: the response text
(possibly empty, JS falsy) or a thrown transport/parse error. -/
inductive ApiOutcome where
  | success (text : String)
  | failure
deriving DecidableEq, Repr

/-- Mirrors `Math.max(...h.sets.map(s => s.weight))` as interpolated into
the prompt: the maximum weight, or the JS `-Infinity` on an empty spread. -/
def jsMaxWeight (sets : List WSet) : String :=
  match (sets.map (fun s => s.weight)).max? with
  | some m => toString m
  | none => "-Infinity"

/-- Summary of one history entry inside `historyText` of
`getExerciseAdvice`: set count and maximum weight lifted. -/
def historySummary (h : Exercise) : String :=
  toString h.sets.length ++ " sets, max weight " ++ jsMaxWeight h.sets ++ "kg"

/-- Mirrors the `historyText` template in `getExerciseAdvice`. -/
def historyText (history : List Exercise) : String :=
  if history.length > 0 then
    "Previous performance: " ++
      String.intercalate "; " (history.map historySummary) ++ "."
  else "No previous history."

/-- Mirrors `getExerciseAdvice` (`src/unnamed/part_000`): missing
credential returns the static key fallback; a thrown call returns the
catch-branch fallback; a falsy response text returns the default tip;
otherwise the response text.  The prompt construction cannot throw, so
the function is total. -/
def getExerciseAdvice (apiKey : String) (outcome : ApiOutcome)
    (exercise : Exercise) (history : List Exercise) : String :=
  if apiKey = "" then "AI insights require an API Key."
  else
    match outcome with
    | ApiOutcome.failure => "Focus on your form and breathing."
    | ApiOutcome.success t => if t = "" then "Keep pushing!" else t

/-- Mirrors `getWorkoutSummaryAnalysis` (`src/unnamed/part_000`), with the
same shape of fallbacks as `getExerciseAdvice` but distinct strings. -/
def getWorkoutSummaryAnalysis (apiKey : String) (outcome : ApiOutcome)
    (workoutName : String) (duration : Nat) (exercises : List Exercise) : String :=
  if apiKey = "" then "Great workout!"
  else
    match outcome with
    | ApiOutcome.failure => "Great effort today!"
    | ApiOutcome.success t =>
        if t = "" then "Good job completing your session." else t

/-- Mirrors `finishWorkout` (`App.tsx`): freezes the active workout as
`completed` with duration `elapsedTime`, requests (and discards) the
summary analysis, prepends the frozen workout to `workouts`, clears the
active slot; no-op without an active workout. -/
def finishWorkout (st : AppState) (apiKey : String) (outcome : ApiOutcome) : AppState :=
  match st.activeWorkout with
  | none => st
  | some w =>
    let completedWorkout : Workout :=
      { w with status := Status.completed, durationSeconds := st.elapsedTime }
    let _summary := getWorkoutSummaryAnalysis apiKey outcome
      completedWorkout.name st.elapsedTime completedWorkout.exercises
    { st with workouts := completedWorkout :: st.workouts, activeWorkout := none }

/-- Mirrors `cancelWorkout` (`App.tsx`): on confirmation, discards the
active workout without touching history. -/
def cancelWorkout (st : AppState) (confirmed : Bool) : AppState :=
  if confirmed then { st with activeWorkout := none } else st

/-- Model of the JS `String.prototype.toLowerCase` used by the name
comparisons: `Char.toLower` applied to every character. -/
def toLowerCase (s : String) : String := String.mk (s.data.map Char.toLower)

/-- Mirrors the `requestAiAdvice` history computation (`App.tsx`): all
exercises of all history workouts, in list order, whose name matches the
name of the current exercise case-insensitively.  `workouts` is kept
newest-first by `finishWorkout`, so list order is most-recent-first. -/
def exerciseAdviceHistory (workouts : List Workout) (exercise : Exercise) : List Exercise :=
  (workouts.flatMap (fun w => w.exercises)).filter
    (fun e => toLowerCase e.name == toLowerCase exercise.name)

/-- The history actually passed to the gateway: `history.slice(0, 5)` at
the `getExerciseAdvice` call site of `requestAiAdvice`. -/
def adviceHistorySelection (workouts : List Workout) (exercise : Exercise) : List Exercise :=
  (exerciseAdviceHistory workouts exercise).take 5

/-- Mirrors the `HistoryView` render order (`App.tsx`):
`[...workouts].reverse()` mapped top to bottom. -/
def historyPresentation (workouts : List Workout) : List Workout :=
  workouts.reverse

/-- Mirrors the guard at the set-row delete button of `ActiveWorkoutView`
(`App.tsx`, "Only show delete if not the only set"): the button that calls
`removeSet` is rendered only when the exercise has more than one set. -/
def uiRemoveSetEnabled (st : AppState) (exerciseId : String) : Bool :=
  match st.activeWorkout with
  | none => false
  | some w =>
    match w.exercises.find? (fun ex => ex.id == exerciseId) with
    | some ex => decide (1 < ex.sets.length)
    | none => false

/-- Wraps `removeSet` as reachable through the UI: the call happens only
behind the rendered delete button. -/
def removeSetViaUI (st : AppState) (exerciseId setId : String) : AppState :=
  if uiRemoveSetEnabled st exerciseId then removeSet st exerciseId setId else st

/-- Lookup of the set that `updateSet`/`toggleSetComplete` address: first
exercise whose id matches, then its first set whose id matches. -/
def findSet (st : AppState) (exerciseId setId : String) : Option WSet :=
  match st.activeWorkout with
  | none => none
  | some w =>
    (w.exercises.find? (fun ex => ex.id == exerciseId)).bind
      (fun ex => ex.sets.find? (fun s => s.id == setId))

/-! ### Concrete fixtures used by witnesses and counterexamples -/

/-- A first sample workout, started (and later finished) before `workoutB`. -/
def workoutA : Workout :=
  { id := "wA", name := "Workout A", date := "2024-01-01T10:00:00Z",
    exercises := [], status := Status.active, durationSeconds := 0 }

/-- A second sample workout, started after `workoutA` was finished. -/
def workoutB : Workout :=
  { id := "wB", name := "Workout B", date := "2024-01-02T10:00:00Z",
    exercises := [], status := Status.active, durationSeconds := 0 }

/-- A sample in-progress exercise with a single set. -/
def squat : Exercise :=
  { id := "e1", name := "Squat",
    sets := [{ id := "s1", weight := 100, reps := 5, completed := false }] }

/-- A completed Bench Press instance with set weights 60, 70 and 80. -/
def benchHist : Exercise :=
  { id := "e9", name := "Bench Press",
    sets := [{ id := "h1", weight := 60, reps := 10, completed := true },
             { id := "h2", weight := 70, reps := 8, completed := true },
             { id := "h3", weight := 80, reps := 5, completed := true }] }

/-- A sample state whose active workout holds the single-set `squat`. -/
def sampleState : AppState :=
  { workouts := [], activeWorkout := some { workoutA with exercises := [squat] },
    elapsedTime := 600 }

/-- State after finishing `workoutA` (the chronologically first session). -/
def stepA : AppState :=
  finishWorkout { workouts := [], activeWorkout := some workoutA, elapsedTime := 600 }
    "" ApiOutcome.failure

/-- State after then starting and finishing `workoutB` (the later session). -/
def stepB : AppState :=
  finishWorkout { stepA with activeWorkout := some workoutB, elapsedTime := 300 }
    "" ApiOutcome.failure

/-- A completed history workout containing the 60/70/80 Bench Press. -/
def benchWorkout : Workout :=
  { workoutA with status := Status.completed, exercises := [benchHist] }

/-- The exercise currently being performed, named in a different case. -/
def benchPressNow : Exercise :=
  { id := "e2", name := "bench press",
    sets := [{ id := "c1", weight := 80, reps := 5, completed := false }] }

/-- One set-level UI action on the active workout: the Add Set button
(`addSet` with a fresh id and the template set it passes) or a delete
button click (`removeSet` behind the `sets.length > 1` render guard). -/
inductive SetCmd where
  | addS (newId exerciseId : String) (previousSet : WSet)
  | removeS (exerciseId setId : String)
deriving DecidableEq, Repr

/-- Interpretation of one `SetCmd` on the Session Store state. -/
def applyCmd (st : AppState) : SetCmd → AppState
  | SetCmd.addS newId exerciseId prev => addSet st newId exerciseId prev
  | SetCmd.removeS exerciseId setId => removeSetViaUI st exerciseId setId

/-- Runs a sequence of UI set commands left to right. -/
def runCmds (st : AppState) : List SetCmd → AppState
  | [] => st
  | c :: cs => runCmds (applyCmd st c) cs

/-- Well-formedness of a workout as `generateId` maintains it: exercise
ids are pairwise distinct, every exercise has at least one set, and set
ids are pairwise distinct within an exercise. -/
def WFWorkout (w : Workout) : Prop :=
  (w.exercises.map (fun e => e.id)).Nodup ∧
  ∀ ex ∈ w.exercises, ex.sets ≠ [] ∧ (ex.sets.map (fun s => s.id)).Nodup

/-- Well-formedness of the state: the active workout, if any, is well
formed. -/
def WFState (st : AppState) : Prop :=
  ∀ w, st.activeWorkout = some w → WFWorkout w

/-- The id `newId` is unused by every set of the active workout: what
`generateId` delivers (up to its astronomically unlikely collisions). -/
def freshFor (st : AppState) (newId : String) : Prop :=
  ∀ w, st.activeWorkout = some w →
    ∀ ex ∈ w.exercises, newId ∉ ex.sets.map (fun s => s.id)

/-- Freshness obligation of a single command. -/
def cmdFresh (st : AppState) : SetCmd → Prop
  | SetCmd.addS newId _ _ => freshFor st newId
  | SetCmd.removeS _ _ => True

/-- Freshness obligations along a run: each generated id is fresh in the
state at which its command executes. -/
def FreshRun (st : AppState) : List SetCmd → Prop
  | [] => True
  | c :: cs => cmdFresh st c ∧ FreshRun (applyCmd st c) cs

/-- The UI command sequence of the C1 witness: add a set to `squat`, then
delete its first set. -/
def sampleCmds : List SetCmd :=
  [SetCmd.addS "s2" "e1" { id := "s1", weight := 100, reps := 5, completed := false },
   SetCmd.removeS "e1" "s1"]

/-! ### Helper lemmas -/

theorem map_if_id {α : Type} (p : α → Prop) [DecidablePred p] (f : α → α)
    (l : List α) (h : ∀ a ∈ l, ¬ p a) :
    l.map (fun a => if p a then f a else a) = l := by
  rw [List.map_congr_left (fun a ha => if_neg (h a ha))]
  exact l.map_id'

/-! ### Claim theorems -/

/-- C5: with no API credential configured, `getExerciseAdvice` and
`getWorkoutSummaryAnalysis` return their own static fallback strings; on a
transport or parse failure each returns a distinct static fallback instead
of propagating the error; all four fallbacks are pairwise distinct, and
both functions are total (never raise) by construction. -/
theorem C5_gateway_fallbacks (apiKey : String) (o : ApiOutcome) (ex : Exercise)
    (hist : List Exercise) (wname : String) (d : Nat) (exs : List Exercise) :
    (apiKey = "" →
      getExerciseAdvice apiKey o ex hist = "AI insights require an API Key." ∧
      getWorkoutSummaryAnalysis apiKey o wname d exs = "Great workout!") ∧
    (apiKey ≠ "" →
      getExerciseAdvice apiKey ApiOutcome.failure ex hist =
        "Focus on your form and breathing." ∧
      getWorkoutSummaryAnalysis apiKey ApiOutcome.failure wname d exs =
        "Great effort today!") ∧
    ([ "AI insights require an API Key.", "Great workout!",
       "Focus on your form and breathing.", "Great effort today!"] : List String).Nodup := by
  refine ⟨fun h => ?_, fun h => ?_, by decide⟩
  · simp [getExerciseAdvice, getWorkoutSummaryAnalysis, h]
  · simp [getExerciseAdvice, getWorkoutSummaryAnalysis, h]

/-- Witness for C5 at concrete inputs: the empty credential and the
credential "key" with a failing call. -/
theorem C5_gateway_fallbacks_witness :
    (getExerciseAdvice "" ApiOutcome.failure squat [] =
        "AI insights require an API Key." ∧
      getWorkoutSummaryAnalysis "" ApiOutcome.failure "Workout A" 600 [] =
        "Great workout!") ∧
    (getExerciseAdvice "key" ApiOutcome.failure squat [] =
        "Focus on your form and breathing." ∧
      getWorkoutSummaryAnalysis "key" ApiOutcome.failure "Workout A" 600 [] =
        "Great effort today!") :=
  ⟨(C5_gateway_fallbacks "" ApiOutcome.failure squat [] "Workout A" 600 []).1 rfl,
   (C5_gateway_fallbacks "key" ApiOutcome.failure squat [] "Workout A" 600 []).2.1
     (by decide)⟩

/-- C2 evidence: `finishWorkout` does prepend, so the stored list is
newest-first (`workoutB` at the head); but `historyPresentation`
(the `HistoryView` expression `[...workouts].reverse()`) then presents the OLDEST
workout first, so its head is not the most recently completed workout. -/
theorem C2_presentation_oldest_first :
    stepB.workouts =
      [{ workoutB with status := Status.completed, durationSeconds := 300 },
       { workoutA with status := Status.completed, durationSeconds := 600 }] ∧
    historyPresentation stepB.workouts =
      [{ workoutA with status := Status.completed, durationSeconds := 600 },
       { workoutB with status := Status.completed, durationSeconds := 300 }] ∧
    (historyPresentation stepB.workouts).head? ≠
      some { workoutB with status := Status.completed, durationSeconds := 300 } := by
  refine ⟨by decide, by decide, by decide⟩

/-- C3: from any state with an active workout, `finishWorkout` empties the
active slot and prepends exactly one history entry — the former active
workout frozen as `completed` with duration `elapsedTime` — and the
resulting state does not depend on the advice-gateway credential or on the
outcome of the summary call. -/
theorem C3_finish_postcondition (st : AppState) (w : Workout) (k : String)
    (o : ApiOutcome) (hw : st.activeWorkout = some w) :
    (finishWorkout st k o).activeWorkout = none ∧
    (finishWorkout st k o).workouts =
      { w with status := Status.completed, durationSeconds := st.elapsedTime }
        :: st.workouts ∧
    (finishWorkout st k o).workouts.length = st.workouts.length + 1 ∧
    (∀ (k2 : String) (o2 : ApiOutcome), finishWorkout st k o = finishWorkout st k2 o2) := by
  refine ⟨?_, ?_, ?_, ?_⟩ <;> simp [finishWorkout, hw]

/-- Witness for C3 at `sampleState` with a failing summary call. -/
theorem C3_finish_postcondition_witness :
    sampleState.activeWorkout = some { workoutA with exercises := [squat] } ∧
    (finishWorkout sampleState "" ApiOutcome.failure).activeWorkout = none ∧
    (finishWorkout sampleState "" ApiOutcome.failure).workouts =
      { workoutA with
          exercises := [squat], status := Status.completed,
          durationSeconds := 600 } :: [] ∧
    (finishWorkout sampleState "" ApiOutcome.failure).workouts.length = 0 + 1 := by
  have h := C3_finish_postcondition sampleState
    { workoutA with exercises := [squat] } "" ApiOutcome.failure rfl
  exact ⟨rfl, h.1, h.2.1, h.2.2.1⟩

/-- C9: no Session Store operation changes a workout already in the
history list: every mutation of the active workout leaves `workouts`
untouched, and `finishWorkout` only prepends (the previous history is a
suffix of the new one), so the fields of a completed workout stay frozen. -/
theorem C9_history_frozen (st : AppState) (newId exId setId name type date k : String)
    (f : SetField) (v : Nat) (prev : WSet) (o : ApiOutcome) (confirmed : Bool) :
    (startWorkout st newId type date).workouts = st.workouts ∧
    (addExercise st exId setId name).workouts = st.workouts ∧
    (updateSet st exId setId f v).workouts = st.workouts ∧
    (toggleSetComplete st exId setId).workouts = st.workouts ∧
    (addSet st newId exId prev).workouts = st.workouts ∧
    (removeSet st exId setId).workouts = st.workouts ∧
    (cancelWorkout st confirmed).workouts = st.workouts ∧
    (∃ t, t ++ st.workouts = (finishWorkout st k o).workouts) := by
  refine ⟨rfl, ?_, ?_, ?_, ?_, ?_, ?_, ?_⟩
  · cases hact : st.activeWorkout <;> simp [addExercise, hact]
  · cases hact : st.activeWorkout <;> simp [updateSet, hact]
  · cases hact : st.activeWorkout <;> simp [toggleSetComplete, hact]
  · cases hact : st.activeWorkout <;> simp [addSet, hact]
  · cases hact : st.activeWorkout <;> simp [removeSet, hact]
  · cases confirmed <;> rfl
  · cases hact : st.activeWorkout with
    | none => exact ⟨[], by simp [finishWorkout, hact]⟩
    | some w =>
        exact ⟨[{ w with status := Status.completed, durationSeconds := st.elapsedTime }],
          by simp [finishWorkout, hact]⟩

theorem find?_map_of_pred {α : Type} (l : List α) (f : α → α) (p : α → Bool)
    (hp : ∀ a, p (f a) = p a) : (l.map f).find? p = (l.find? p).map f := by
  induction l with
  | nil => rfl
  | cons a t ih =>
      by_cases h : p a = true
      · rw [List.map_cons, List.find?_cons_of_pos _ (by rw [hp]; exact h),
          List.find?_cons_of_pos _ h]
        rfl
      · rw [List.map_cons, List.find?_cons_of_neg _ (by rw [hp]; exact h),
          List.find?_cons_of_neg _ h, ih]

/-- The per-set flip of `toggleSetComplete` is an involution. -/
theorem toggle_flip_involutive (setId : String) (s : WSet) :
    (fun s => if s.id = setId then { s with completed := !s.completed } else s)
      ((fun s => if s.id = setId then { s with completed := !s.completed } else s) s)
      = s := by
  by_cases h : s.id = setId
  · simp only [if_pos h, Bool.not_not]
  · simp only [if_neg h]

/-- The per-exercise transformation of `toggleSetComplete` is an involution. -/
theorem toggle_exercise_involutive (exerciseId setId : String) (ex : Exercise) :
    (fun ex => if ex.id = exerciseId then
        { ex with sets := ex.sets.map (fun s =>
            if s.id = setId then { s with completed := !s.completed } else s) }
      else ex)
      ((fun ex => if ex.id = exerciseId then
          { ex with sets := ex.sets.map (fun s =>
              if s.id = setId then { s with completed := !s.completed } else s) }
        else ex) ex) = ex := by
  have hs : ∀ l : List WSet, (l.map (fun s =>
      if s.id = setId then { s with completed := !s.completed } else s)).map
        (fun s => if s.id = setId then { s with completed := !s.completed } else s) = l := by
    intro l
    rw [List.map_map]
    simp only [Function.comp_def]
    rw [List.map_congr_left (fun s _ => toggle_flip_involutive setId s)]
    exact l.map_id'
  by_cases h : ex.id = exerciseId
  · simp only [if_pos h, hs]
  · simp only [if_neg h]

/-- C8: `toggleSetComplete` applied twice with the same ids is the
identity on the whole Session Store state, and a single application flips
exactly the `completed` flag of the addressed set (as looked up by
`findSet`), so the flag returns to its original value. -/
theorem C8_toggle_involutive (st : AppState) (exerciseId setId : String) :
    toggleSetComplete (toggleSetComplete st exerciseId setId) exerciseId setId = st ∧
    findSet (toggleSetComplete st exerciseId setId) exerciseId setId =
      (findSet st exerciseId setId).map
        (fun s => { s with completed := !s.completed }) := by
  cases hact : st.activeWorkout with
  | none => simp [toggleSetComplete, findSet, hact]
  | some w =>
    constructor
    · simp only [toggleSetComplete, hact]
      rw [List.map_map]
      simp only [Function.comp_def]
      rw [List.map_congr_left
        (fun ex _ => toggle_exercise_involutive exerciseId setId ex)]
      rw [List.map_id']
      rw [← hact]
    · simp only [toggleSetComplete, findSet, hact]
      rw [find?_map_of_pred _ _ _ (fun ex => by by_cases h : ex.id = exerciseId <;> simp [h])]
      cases hf : w.exercises.find? (fun ex => ex.id == exerciseId) with
      | none => rfl
      | some ex0 =>
          have hex0 : ex0.id = exerciseId := by
            have := List.find?_some hf
            simpa using this
          simp only [Option.map_some', Option.some_bind, hex0, if_pos]
          rw [find?_map_of_pred _ _ _ (fun s => by by_cases h : s.id = setId <;> simp [h])]
          cases hf2 : ex0.sets.find? (fun s => s.id == setId) with
          | none => rfl
          | some s0 =>
              have hs0 : s0.id = setId := by
                have := List.find?_some hf2
                simpa using this
              simp [hs0]

theorem set_active_self (st : AppState) (w : Workout)
    (hw : st.activeWorkout = some w) : { st with activeWorkout := some w } = st := by
  cases st
  subst hw
  rfl

/-- C4: every Session Store mutation is a total Lean function (it cannot
fail); with no active workout each mutation returns the state unchanged,
and with an active workout an `exerciseId` matching no exercise — or a
`setId` matching no set of any matching exercise — also returns the state
unchanged. -/
theorem C4_mutations_total_noop (st : AppState) (newId exId setId name k : String)
    (f : SetField) (v : Nat) (prev : WSet) (o : ApiOutcome) :
    (st.activeWorkout = none →
      addExercise st exId setId name = st ∧
      updateSet st exId setId f v = st ∧
      toggleSetComplete st exId setId = st ∧
      addSet st newId exId prev = st ∧
      removeSet st exId setId = st ∧
      finishWorkout st k o = st) ∧
    (∀ w, st.activeWorkout = some w → (∀ ex ∈ w.exercises, ex.id ≠ exId) →
      updateSet st exId setId f v = st ∧
      toggleSetComplete st exId setId = st ∧
      addSet st newId exId prev = st ∧
      removeSet st exId setId = st) ∧
    (∀ w, st.activeWorkout = some w →
      (∀ ex ∈ w.exercises, ex.id = exId → ∀ s ∈ ex.sets, s.id ≠ setId) →
      updateSet st exId setId f v = st ∧
      toggleSetComplete st exId setId = st ∧
      removeSet st exId setId = st) := by
  refine ⟨fun h => ?_, fun w hw hun => ?_, fun w hw hun => ?_⟩
  · exact ⟨by simp [addExercise, h], by simp [updateSet, h],
      by simp [toggleSetComplete, h], by simp [addSet, h],
      by simp [removeSet, h], by simp [finishWorkout, h]⟩
  · refine ⟨?_, ?_, ?_, ?_⟩
    · simp only [updateSet, hw]
      rw [map_if_id (fun ex => ex.id = exId) _ _ (fun ex hex => hun ex hex)]
      exact set_active_self st w hw
    · simp only [toggleSetComplete, hw]
      rw [map_if_id (fun ex => ex.id = exId) _ _ (fun ex hex => hun ex hex)]
      exact set_active_self st w hw
    · simp only [addSet, hw]
      rw [map_if_id (fun ex => ex.id = exId) _ _ (fun ex hex => hun ex hex)]
      exact set_active_self st w hw
    · simp only [removeSet, hw]
      rw [map_if_id (fun ex => ex.id = exId) _ _ (fun ex hex => hun ex hex)]
      exact set_active_self st w hw
  · refine ⟨?_, ?_, ?_⟩
    · simp only [updateSet, hw]
      rw [List.map_congr_left (fun ex hex => ?_), List.map_id']
      · exact set_active_self st w hw
      · by_cases h : ex.id = exId
        · rw [if_pos h,
            map_if_id (fun s => s.id = setId) _ _ (fun s hs => hun ex hex h s hs)]
        · rw [if_neg h]
    · simp only [toggleSetComplete, hw]
      rw [List.map_congr_left (fun ex hex => ?_), List.map_id']
      · exact set_active_self st w hw
      · by_cases h : ex.id = exId
        · rw [if_pos h,
            map_if_id (fun s => s.id = setId) _ _ (fun s hs => hun ex hex h s hs)]
        · rw [if_neg h]
    · simp only [removeSet, hw]
      rw [List.map_congr_left (fun ex hex => ?_), List.map_id']
      · exact set_active_self st w hw
      · by_cases h : ex.id = exId
        · rw [if_pos h, List.filter_eq_self.mpr
            (fun s hs => by simpa [bne_iff_ne] using hun ex hex h s hs)]
        · rw [if_neg h]

/-- Witness for C4: a state with no active workout absorbs `addExercise`,
and `sampleState` absorbs an `updateSet` aimed at a missing exercise id
and a `removeSet` aimed at a missing set id. -/
theorem C4_mutations_total_noop_witness :
    addExercise { workouts := [], activeWorkout := none, elapsedTime := 0 } "e" "s" "Row" =
      { workouts := [], activeWorkout := none, elapsedTime := 0 } ∧
    updateSet sampleState "zz" "s1" SetField.weight 50 = sampleState ∧
    removeSet sampleState "e1" "zz" = sampleState := by
  have h1 := (C4_mutations_total_noop
    { workouts := [], activeWorkout := none, elapsedTime := 0 }
    "n" "e" "s" "Row" "" SetField.weight 50
    { id := "p", weight := 0, reps := 0, completed := false } ApiOutcome.failure).1 rfl
  have h2 := C4_mutations_total_noop sampleState
    "n" "zz" "s1" "Row" "" SetField.weight 50
    { id := "p", weight := 0, reps := 0, completed := false } ApiOutcome.failure
  have h3 := C4_mutations_total_noop sampleState
    "n" "e1" "zz" "Row" "" SetField.weight 50
    { id := "p", weight := 0, reps := 0, completed := false } ApiOutcome.failure
  exact ⟨h1.1,
    (h2.2.1 _ rfl (by decide)).1,
    (h3.2.2 _ rfl (by decide)).2.2⟩

/-- C10: `updateSet` and `toggleSetComplete` change at most the named
numeric field, respectively the `completed` flag, of the sets matching
`(exerciseId, setId)`: the history list and timer are untouched, the
scalar fields of the workout are unchanged, exercises correspond one-to-one in
order with identical ids and names, sets correspond one-to-one in order
with identical ids, every non-matching set is unchanged, and a matching
set keeps all its other fields. -/
theorem C10_update_toggle_frame (st : AppState) (exId setId : String)
    (f : SetField) (v : Nat) (w : Workout) (hw : st.activeWorkout = some w) :
    ((updateSet st exId setId f v).workouts = st.workouts ∧
     (updateSet st exId setId f v).elapsedTime = st.elapsedTime ∧
     ∃ w', (updateSet st exId setId f v).activeWorkout = some w' ∧
       w'.id = w.id ∧ w'.name = w.name ∧ w'.date = w.date ∧
       w'.status = w.status ∧ w'.durationSeconds = w.durationSeconds ∧
       List.Forall₂ (fun ex ex' =>
         ex'.id = ex.id ∧ ex'.name = ex.name ∧
         List.Forall₂ (fun s s' =>
           s'.id = s.id ∧ s'.completed = s.completed ∧
           (¬(ex.id = exId ∧ s.id = setId) → s' = s) ∧
           (ex.id = exId ∧ s.id = setId →
             (f = SetField.weight → s'.weight = v ∧ s'.reps = s.reps) ∧
             (f = SetField.reps → s'.reps = v ∧ s'.weight = s.weight)))
           ex.sets ex'.sets) w.exercises w'.exercises) ∧
    ((toggleSetComplete st exId setId).workouts = st.workouts ∧
     (toggleSetComplete st exId setId).elapsedTime = st.elapsedTime ∧
     ∃ w', (toggleSetComplete st exId setId).activeWorkout = some w' ∧
       w'.id = w.id ∧ w'.name = w.name ∧ w'.date = w.date ∧
       w'.status = w.status ∧ w'.durationSeconds = w.durationSeconds ∧
       List.Forall₂ (fun ex ex' =>
         ex'.id = ex.id ∧ ex'.name = ex.name ∧
         List.Forall₂ (fun s s' =>
           s'.id = s.id ∧ s'.weight = s.weight ∧ s'.reps = s.reps ∧
           (¬(ex.id = exId ∧ s.id = setId) → s' = s) ∧
           (ex.id = exId ∧ s.id = setId → s'.completed = !s.completed))
           ex.sets ex'.sets) w.exercises w'.exercises) := by
  obtain ⟨ws, aw, e⟩ := st
  obtain rfl : aw = some w := hw
  constructor
  · refine ⟨rfl, rfl, _, rfl, rfl, rfl, rfl, rfl, rfl, ?_⟩
    rw [List.forall₂_map_right_iff, List.forall₂_same]
    intro ex _
    by_cases h : ex.id = exId
    · rw [if_pos h]
      refine ⟨rfl, rfl, ?_⟩
      rw [List.forall₂_map_right_iff, List.forall₂_same]
      intro s _
      by_cases h2 : s.id = setId
      · rw [if_pos h2]
        cases f
        · exact ⟨rfl, rfl, fun hc => absurd ⟨h, h2⟩ hc,
            fun _ => ⟨fun _ => ⟨rfl, rfl⟩, fun hh => by cases hh⟩⟩
        · exact ⟨rfl, rfl, fun hc => absurd ⟨h, h2⟩ hc,
            fun _ => ⟨fun hh => (by cases hh), fun _ => ⟨rfl, rfl⟩⟩⟩
      · rw [if_neg h2]
        exact ⟨rfl, rfl, fun _ => rfl, fun hc => absurd hc.2 h2⟩
    · rw [if_neg h]
      refine ⟨rfl, rfl, ?_⟩
      rw [List.forall₂_same]
      exact fun s _ => ⟨rfl, rfl, fun _ => rfl, fun hc => absurd hc.1 h⟩
  · refine ⟨rfl, rfl, _, rfl, rfl, rfl, rfl, rfl, rfl, ?_⟩
    rw [List.forall₂_map_right_iff, List.forall₂_same]
    intro ex _
    by_cases h : ex.id = exId
    · rw [if_pos h]
      refine ⟨rfl, rfl, ?_⟩
      rw [List.forall₂_map_right_iff, List.forall₂_same]
      intro s _
      by_cases h2 : s.id = setId
      · rw [if_pos h2]
        exact ⟨rfl, rfl, rfl, fun hc => absurd ⟨h, h2⟩ hc, fun _ => rfl⟩
      · rw [if_neg h2]
        exact ⟨rfl, rfl, rfl, fun _ => rfl, fun hc => absurd hc.2 h2⟩
    · rw [if_neg h]
      refine ⟨rfl, rfl, ?_⟩
      rw [List.forall₂_same]
      exact fun s _ => ⟨rfl, rfl, rfl, fun _ => rfl, fun hc => absurd hc.1 h⟩

/-- Witness for C10 at `sampleState`, hitting the matching ids
`("e1", "s1")` of the single-set `squat`. -/
theorem C10_update_toggle_frame_witness :
    sampleState.activeWorkout = some { workoutA with exercises := [squat] } ∧
    (updateSet sampleState "e1" "s1" SetField.weight 120).workouts =
      sampleState.workouts ∧
    (toggleSetComplete sampleState "e1" "s1").elapsedTime =
      sampleState.elapsedTime := by
  have h := C10_update_toggle_frame sampleState "e1" "s1" SetField.weight 120
    { workoutA with exercises := [squat] } rfl
  exact ⟨rfl, h.1.1, h.2.2.1⟩

/-- C6: the history handed to the exercise-advice gateway selects entries
whose name matches the name of the current exercise case-insensitively, keeps
at most five, and is a prefix of the full match list — which is in
workout-list order, i.e. most-recent-first since `finishWorkout` prepends.
Concretely, a prior "Bench Press" with weights 60/70/80 is selected for a
current "bench press" and contributes "80" (its max weight, with its set
count) to the summary text fed to the gateway. -/
theorem C6_advice_history_selection :
    (∀ (ws : List Workout) (ex e : Exercise),
      e ∈ adviceHistorySelection ws ex → toLowerCase e.name = toLowerCase ex.name) ∧
    (∀ (ws : List Workout) (ex : Exercise),
      (adviceHistorySelection ws ex).length ≤ 5 ∧
      ∃ rest, adviceHistorySelection ws ex ++ rest = exerciseAdviceHistory ws ex) ∧
    adviceHistorySelection [benchWorkout] benchPressNow = [benchHist] ∧
    historyText (adviceHistorySelection [benchWorkout] benchPressNow) =
      "Previous performance: 3 sets, max weight 80kg." := by
  refine ⟨?_, ?_, by decide, by decide⟩
  · intro ws ex e he
    have h1 : e ∈ exerciseAdviceHistory ws ex := List.mem_of_mem_take he
    have h2 := (List.mem_filter.mp h1).2
    simpa using h2
  · intro ws ex
    exact ⟨List.length_take_le 5 _,
      ⟨(exerciseAdviceHistory ws ex).drop 5, List.take_append_drop 5 _⟩⟩

/-- Witness for C6: the selected `benchHist` entry indeed matches the
name of the current exercise case-insensitively. -/
theorem C6_advice_history_selection_witness :
    benchHist ∈ adviceHistorySelection [benchWorkout] benchPressNow ∧
    toLowerCase benchHist.name = toLowerCase benchPressNow.name :=
  ⟨by decide,
   C6_advice_history_selection.1 [benchWorkout] benchPressNow benchHist (by decide)⟩

/-- C7: through the Add Set button — which passes the current last set of
the exercise as `previousSet` — `addSet` appends exactly one new set to
the end of the set list of the addressed exercise, pre-filled with the
weight and reps of the last set and `completed := false`; every other exercise, every
existing set, the history list and the timer are unchanged.  The
exercise-id `Nodup` hypothesis reflects that `generateId` ids are unique. -/
theorem C7_addSet_appends (st : AppState) (w : Workout) (newId : String)
    (l1 l2 : List Exercise) (ex : Exercise) (hne : ex.sets ≠ [])
    (hw : st.activeWorkout = some w)
    (hsplit : w.exercises = l1 ++ ex :: l2)
    (hnd : (w.exercises.map (fun e => e.id)).Nodup) :
    addSet st newId ex.id (ex.sets.getLast hne) =
      { st with activeWorkout := some ({ w with exercises :=
          l1 ++ { ex with sets := ex.sets ++
            [{ id := newId, weight := (ex.sets.getLast hne).weight,
               reps := (ex.sets.getLast hne).reps, completed := false }] } :: l2 }) } := by
  rw [hsplit, List.map_append, List.map_cons] at hnd
  rcases List.nodup_append.mp hnd with ⟨-, h2, hdisj⟩
  have hcons := List.nodup_cons.mp h2
  have hl1 : ∀ e1 ∈ l1, ¬ e1.id = ex.id := by
    intro e1 he1 heq
    exact hdisj (List.mem_map_of_mem _ he1)
      (by rw [← heq]; exact List.mem_cons_self _ _)
  have hl2 : ∀ e2 ∈ l2, ¬ e2.id = ex.id := by
    intro e2 he2 heq
    exact hcons.1 (heq ▸ List.mem_map_of_mem (fun e => e.id) he2)
  simp only [addSet, hw, hsplit, List.map_append, List.map_cons]
  rw [List.map_congr_left (fun e1 he1 => if_neg (hl1 e1 he1)),
    List.map_congr_left (fun e2 he2 => if_neg (hl2 e2 he2))]
  simp only [List.map_id', if_true]

/-- Witness for C7: adding a set to the single-set `squat` of
`sampleState` duplicates its 100kg x 5 as an incomplete new set "s2". -/
theorem C7_addSet_appends_witness :
    sampleState.activeWorkout = some { workoutA with exercises := [squat] } ∧
    ({ workoutA with exercises := [squat] } : Workout).exercises = [] ++ squat :: [] ∧
    squat.sets ≠ [] ∧
    (({ workoutA with exercises := [squat] } : Workout).exercises.map
      (fun e => e.id)).Nodup ∧
    addSet sampleState "s2" "e1"
        { id := "s1", weight := 100, reps := 5, completed := false } =
      { workouts := [],
        activeWorkout := some ({ workoutA with exercises :=
          [{ squat with sets :=
              [{ id := "s1", weight := 100, reps := 5, completed := false },
               { id := "s2", weight := 100, reps := 5, completed := false }] }] }),
        elapsedTime := 600 } := by
  refine ⟨rfl, rfl, by decide, by decide, ?_⟩
  exact C7_addSet_appends sampleState { workoutA with exercises := [squat] }
    "s2" [] [] squat (by decide) rfl rfl (by decide)

theorem map_ids_preserved (l : List Exercise) (g : Exercise → Exercise)
    (hg : ∀ ex, (g ex).id = ex.id) :
    (l.map g).map (fun e => e.id) = l.map (fun e => e.id) := by
  rw [List.map_map]
  simp only [Function.comp_def]
  exact List.map_congr_left (fun ex _ => hg ex)

theorem filter_ne_nonempty (l : List WSet) (setId : String)
    (hnd : (l.map (fun s => s.id)).Nodup) (hlen : 1 < l.length) :
    l.filter (fun s => s.id != setId) ≠ [] := by
  cases l with
  | nil => simp at hlen
  | cons a l2 =>
    cases l2 with
    | nil => simp at hlen
    | cons b t =>
      simp only [List.map_cons, List.nodup_cons] at hnd
      have hab : a.id ≠ b.id := fun hq =>
        hnd.1 (by rw [hq]; exact List.mem_cons_self _ _)
      by_cases ha : a.id = setId
      · have hb : b.id ≠ setId := fun hq => hab (by rw [ha, hq])
        exact List.ne_nil_of_mem (List.mem_filter.mpr
          ⟨List.mem_cons_of_mem _ (List.mem_cons_self _ _),
           by simpa [bne_iff_ne] using hb⟩)
      · exact List.ne_nil_of_mem (List.mem_filter.mpr
          ⟨List.mem_cons_self _ _, by simpa [bne_iff_ne] using ha⟩)

/-- The structural replacement done by `addSet` preserves well-formedness
when the generated id is fresh. -/
theorem wf_addSet_workout (w : Workout) (newId exerciseId : String) (prev : WSet)
    (hwf : WFWorkout w)
    (hfresh : ∀ ex ∈ w.exercises, newId ∉ ex.sets.map (fun s => s.id)) :
    WFWorkout { w with exercises := w.exercises.map (fun ex =>
      if ex.id = exerciseId then
        { ex with sets := ex.sets ++
            [{ id := newId, weight := prev.weight, reps := prev.reps,
               completed := false }] }
      else ex) } := by
  obtain ⟨hnd, hsets⟩ := hwf
  constructor
  · rw [map_ids_preserved _ _
      (fun ex => by by_cases h : ex.id = exerciseId <;> simp [h])]
    exact hnd
  · intro ex' hex'
    obtain ⟨ex, hex, rfl⟩ := List.mem_map.mp hex'
    by_cases h : ex.id = exerciseId
    · rw [if_pos h]
      refine ⟨by simp, ?_⟩
      rw [List.map_append]
      refine List.nodup_append.mpr ⟨(hsets ex hex).2, by simp, ?_⟩
      intro a ha hb
      simp only [List.map_cons, List.map_nil, List.mem_singleton] at hb
      subst hb
      exact hfresh ex hex ha
    · rw [if_neg h]
      exact hsets ex hex

/-- The structural replacement done by `removeSet` preserves
well-formedness when the addressed exercise has more than one set (the UI
guard) — the matching exercise keeps at least one set. -/
theorem wf_removeSet_workout (w : Workout) (exerciseId setId : String)
    (ex0 : Exercise) (hwf : WFWorkout w)
    (hfind : w.exercises.find? (fun ex => ex.id == exerciseId) = some ex0)
    (hlen : 1 < ex0.sets.length) :
    WFWorkout { w with exercises := w.exercises.map (fun ex =>
      if ex.id = exerciseId then
        { ex with sets := ex.sets.filter (fun s => s.id != setId) }
      else ex) } := by
  obtain ⟨hnd, hsets⟩ := hwf
  have hex0mem : ex0 ∈ w.exercises := List.mem_of_find?_eq_some hfind
  have hex0id : ex0.id = exerciseId := by simpa using List.find?_some hfind
  constructor
  · rw [map_ids_preserved _ _
      (fun ex => by by_cases h : ex.id = exerciseId <;> simp [h])]
    exact hnd
  · intro ex' hex'
    obtain ⟨ex, hex, rfl⟩ := List.mem_map.mp hex'
    by_cases h : ex.id = exerciseId
    · rw [if_pos h]
      have hexeq : ex = ex0 :=
        List.inj_on_of_nodup_map hnd hex hex0mem (by rw [h, hex0id])
      have hlen' : 1 < ex.sets.length := by rw [hexeq]; exact hlen
      refine ⟨filter_ne_nonempty _ _ (hsets ex hex).2 hlen', ?_⟩
      exact List.Nodup.sublist ((List.filter_sublist _).map _) (hsets ex hex).2
    · rw [if_neg h]
      exact hsets ex hex

/-- One UI command preserves state well-formedness, given its freshness
obligation. -/
theorem wf_applyCmd (st : AppState) (c : SetCmd)
    (hwf : WFState st) (hfresh : cmdFresh st c) : WFState (applyCmd st c) := by
  cases c with
  | addS newId exerciseId prev =>
    intro w' hw'
    cases hact : st.activeWorkout with
    | none =>
      simp only [applyCmd, addSet, hact] at hw'
      exact Option.noConfusion hw'
    | some w =>
      simp only [applyCmd, addSet, hact, Option.some.injEq] at hw'
      subst hw'
      exact wf_addSet_workout w newId exerciseId prev (hwf w hact)
        (hfresh w hact)
  | removeS exerciseId setId =>
    show WFState (removeSetViaUI st exerciseId setId)
    unfold removeSetViaUI
    by_cases hen : uiRemoveSetEnabled st exerciseId = true
    · rw [if_pos hen]
      intro w' hw'
      cases hact : st.activeWorkout with
      | none =>
        simp only [removeSet, hact] at hw'
        exact Option.noConfusion hw'
      | some w =>
        simp only [removeSet, hact, Option.some.injEq] at hw'
        subst hw'
        have hen' : (match w.exercises.find? (fun ex => ex.id == exerciseId) with
            | some ex => decide (1 < ex.sets.length)
            | none => false) = true := by
          simpa [uiRemoveSetEnabled, hact] using hen
        cases hfind : w.exercises.find? (fun ex => ex.id == exerciseId) with
        | none => rw [hfind] at hen'; simp at hen'
        | some ex0 =>
          rw [hfind] at hen'
          have hlen : 1 < ex0.sets.length := by simpa using hen'
          exact wf_removeSet_workout w exerciseId setId ex0 (hwf w hact) hfind hlen
    · rw [if_neg hen]
      exact hwf

/-- C1 (amended): `removeSet` behind the UI guard — the delete button is
rendered only when the exercise has more than one set — never empties an
exercise: a disabled delete is a no-op, and along every sequence of Add
Set / UI-guarded delete commands (with `generateId` ids fresh), every
exercise of the active workout keeps at least one set. -/
theorem C1_guarded_set_count (st : AppState) (cmds : List SetCmd)
    (hwf : WFState st) (hfresh : FreshRun st cmds) :
    (∀ exerciseId setId, uiRemoveSetEnabled st exerciseId = false →
      removeSetViaUI st exerciseId setId = st) ∧
    (∀ w, (runCmds st cmds).activeWorkout = some w →
      ∀ ex ∈ w.exercises, 1 ≤ ex.sets.length) := by
  constructor
  · intro exerciseId setId h
    simp [removeSetViaUI, h]
  · have hrun : WFState (runCmds st cmds) := by
      induction cmds generalizing st with
      | nil => exact hwf
      | cons c cs ih => exact ih _ (wf_applyCmd _ _ hwf hfresh.1) hfresh.2
    intro w hw ex hex
    have h := (hrun w hw).2 ex hex
    exact List.length_pos.mpr h.1

/-- C1 counterexample to the claim as stated: the store-level `removeSet`
on the single remaining set "s1" of `squat` is NOT a no-op — it changes
the state, leaving the exercise with zero sets. -/
theorem C1_removeSet_last_not_noop :
    removeSet sampleState "e1" "s1" ≠ sampleState ∧
    (removeSet sampleState "e1" "s1").activeWorkout =
      some ({ workoutA with exercises := [{ squat with sets := [] }] }) := by
  exact ⟨by decide, by decide⟩

/-- Witness for the amended C1 at `sampleState` and `sampleCmds`. -/
theorem C1_guarded_set_count_witness :
    WFState sampleState ∧ FreshRun sampleState sampleCmds ∧
    (∀ w, (runCmds sampleState sampleCmds).activeWorkout = some w →
      ∀ ex ∈ w.exercises, 1 ≤ ex.sets.length) := by
  have hwf : WFState sampleState := by
    intro w hw
    have hw' : some ({ workoutA with exercises := [squat] }) = some w := hw
    injection hw' with h
    subst h
    exact ⟨by decide, by decide⟩
  have hfresh : FreshRun sampleState sampleCmds := by
    refine ⟨?_, trivial, trivial⟩
    intro w hw
    have hw' : some ({ workoutA with exercises := [squat] }) = some w := hw
    injection hw' with h
    subst h
    decide
  exact ⟨hwf, hfresh, (C1_guarded_set_count sampleState sampleCmds hwf hfresh).2⟩

end IronTrack
